import Mathlib

/-!
Verification development for the F1 aerodynamic-performance estimator
(physics core: aerodynamic force model, lap-time simulator, circuit analyzer).

The Python source is embedded shallowly:

* numeric state is modelled over the real numbers (the Python code computes
  with IEEE doubles; all properties proved here are interval/ordering facts
  that are robust to rounding, and exact-arithmetic counterexamples use
  decimally-representable constants);
* fallible code paths (`math.sqrt` of a negative number, float division by
  zero, both of which raise in Python) are modelled with `Option`: `none`
  means the Python call raises an exception;
* the track registry is rational-valued data, exactly as in
  `config/track_configs.py`;
* `while` loops are modelled by fuel-indexed recursion.  The straight-line
  integrator's guard `time < 60` with exact `time += 0.1` steps bounds the
  iteration count by 600, which is proved below
  (`straight_loop_fuel_stable`), so fuel 600 is faithful to the unbounded
  Python loop.

Field and function names follow the source (`physics/aerodynamics.py`,
`physics/lap_time_simulator.py`, `physics/circuit_analyzer.py`,
`config/track_configs.py`, `config/settings.py`).
-/

/-! ## Physical constants (config/settings.py) -/

def AIR_DENSITY : ℚ := 1.225

def GRAVITY : ℚ := 9.81

def F1_CAR_MASS : ℚ := 798

/-! ## Lap-time string format

`simulate_lap` formats the lap time as `f"{minutes}:{seconds:06.3f}"`.
For `0 ≤ seconds < 100` (always the case, as `seconds = total % 60`),
the `%06.3f` rendering of `seconds` is exactly two integer digits, a dot
and three fractional digits of the value rounded to milliseconds.
`msDigits ms` produces those six characters from the millisecond count.
(Python rounds the decimal expansion half-to-even; `Mathlib.round` used
further below rounds half-up.  The two agree except on exact half-millis,
which none of the proofs here depend on.) -/

def msDigits (ms : ℕ) : List Char :=
  [Nat.digitChar (ms / 10000 % 10), Nat.digitChar (ms / 1000 % 10), '.',
   Nat.digitChar (ms / 100 % 10), Nat.digitChar (ms / 10 % 10), Nat.digitChar (ms % 10)]

/-- Checker for the tail of an `M:SS.mmm` string: zero or more further minute
digits, a colon, then exactly two digits, a dot and three digits. -/
def lapFormatTail : List Char → Bool
  | ':' :: a :: b :: p :: c :: d :: e :: [] =>
      a.isDigit && b.isDigit && (p == '.') && c.isDigit && d.isDigit && e.isDigit
  | c :: rest => c.isDigit && lapFormatTail rest
  | [] => false

/-- Does a string match the `M:SS.mmm` lap-time format (at least one minute
digit, colon, two second digits, dot, three millisecond digits)? -/
def matches_lap_format (s : String) : Bool :=
  match s.data with
  | c :: rest => c.isDigit && lapFormatTail rest
  | [] => false

/-! ## Track registry (config/track_configs.py)

Only the fields consumed by the physics core are retained: `name`,
`circuit_length` (km), `corner_count`, `downforce_level`,
`longest_straight` (m).  The remaining fields of the Python dataclass
(average speed, elevation, optimal setup, DRS zones, grip, 2024 reference
times) are not read by any code path covered by the claims. -/

inductive DownforceLevel where
  | low
  | medium
  | high
deriving DecidableEq

def DownforceLevel.value : DownforceLevel → String
  | .low => "low"
  | .medium => "medium"
  | .high => "high"

structure TrackConfig where
  name : String
  circuit_length : ℚ
  corner_count : ℕ
  downforce_level : DownforceLevel
  longest_straight : ℚ
deriving DecidableEq

/-- Kernel-reducible rational literal (numerator over denominator in lowest
terms), used so that registry lookups evaluate by `decide`. -/
def q (n : ℤ) (d : ℕ) (h1 : d ≠ 0 := by decide) (h2 : n.natAbs.Coprime d := by decide) : ℚ :=
  ⟨n, d, h1, h2⟩

def TRACK_CONFIGS : List (String × TrackConfig) :=
  [("Bahrain", ⟨"Bahrain International Circuit", q 1353 250, 15, .medium, 1090⟩),
   ("Saudi Arabia", ⟨"Jeddah Corniche Circuit", q 3087 500, 27, .medium, 1000⟩),
   ("Australia", ⟨"Albert Park Circuit", q 2639 500, 14, .medium, 850⟩),
   ("Japan", ⟨"Suzuka International Racing Course", q 5807 1000, 18, .medium, 700⟩),
   ("China", ⟨"Shanghai International Circuit", q 5451 1000, 16, .medium, 1170⟩),
   ("Miami", ⟨"Miami International Autodrome", q 1353 250, 19, .medium, 1050⟩),
   ("Emilia Romagna", ⟨"Autodromo Enzo e Dino Ferrari (Imola)", q 4909 1000, 19, .medium, 650⟩),
   ("Monaco", ⟨"Circuit de Monaco", q 3337 1000, 19, .high, 580⟩),
   ("Spain", ⟨"Circuit de Barcelona-Catalunya", q 4657 1000, 16, .medium, 1047⟩),
   ("Canada", ⟨"Circuit Gilles Villeneuve", q 4361 1000, 14, .low, 900⟩),
   ("Austria", ⟨"Red Bull Ring", q 2159 500, 10, .low, 710⟩),
   ("Great Britain", ⟨"Silverstone Circuit", q 5891 1000, 18, .medium, 770⟩),
   ("Hungary", ⟨"Hungaroring", q 4381 1000, 14, .high, 650⟩),
   ("Belgium", ⟨"Circuit de Spa-Francorchamps", q 1751 250, 19, .low, 730⟩),
   ("Netherlands", ⟨"Circuit Zandvoort", q 4259 1000, 14, .high, 570⟩),
   ("Italy", ⟨"Autodromo Nazionale di Monza", q 5793 1000, 11, .low, 1150⟩),
   ("Azerbaijan", ⟨"Baku City Circuit", q 6003 1000, 20, .medium, 2200⟩),
   ("Singapore", ⟨"Marina Bay Street Circuit", q 247 50, 19, .high, 800⟩),
   ("United States", ⟨"Circuit of The Americas", q 5513 1000, 20, .medium, 1200⟩),
   ("Mexico", ⟨"Autódromo Hermanos Rodríguez", q 538 125, 17, .high, 900⟩),
   ("Brazil", ⟨"Autódromo José Carlos Pace (Interlagos)", q 4309 1000, 15, .medium, 980⟩),
   ("Las Vegas", ⟨"Las Vegas Street Circuit", q 153 25, 17, .low, 1900⟩),
   ("Qatar", ⟨"Losail International Circuit", q 269 50, 16, .medium, 1068⟩),
   ("Abu Dhabi", ⟨"Yas Marina Circuit", q 5281 1000, 16, .medium, 1170⟩)]

/-- Python's `str.lower` (ASCII case folding, as in the registry names). -/
def lowerStr (s : String) : String := String.mk (s.data.map Char.toLower)

/-- Python's substring test `needle in hay` on character lists. -/
def containsSub : List Char → List Char → Bool
  | [], needle => needle.isEmpty
  | c :: rest, needle => needle.isPrefixOf (c :: rest) || containsSub rest needle

/-- `get_track_by_name`: exact key match first, then the first entry whose
key or track name contains the query case-insensitively. -/
def get_track_by_name (track_name : String) : Option TrackConfig :=
  match TRACK_CONFIGS.find? (fun kv => kv.1 == track_name) with
  | some kv => some kv.2
  | none =>
    match TRACK_CONFIGS.find? (fun kv =>
        containsSub (lowerStr kv.1).data (lowerStr track_name).data ||
        containsSub (lowerStr kv.2.name).data (lowerStr track_name).data) with
    | some kv => some kv.2
    | none => none

/-! ## Real-valued physics model -/

noncomputable section

/-- Aerodynamic state of the car (`physics/aerodynamics.py`, `AeroState`). -/
structure AeroState where
  velocity : ℝ
  drag_coefficient : ℝ
  lift_coefficient_front : ℝ
  lift_coefficient_rear : ℝ
  frontal_area : ℝ
  ride_height_front : ℝ
  ride_height_rear : ℝ
  wing_angle_front : ℝ
  wing_angle_rear : ℝ
  yaw_angle : ℝ := 0
  ground_effect_active : Bool := true

/-- `calculate_drag_force`: `0.5 * rho * v^2 * Cd_adjusted * A` with
`Cd_adjusted = Cd * (1 + 0.02 * |yaw|)`. -/
def calculate_drag_force (s : AeroState) : ℝ :=
  let cd_adjusted := s.drag_coefficient * (1 + 0.02 * |s.yaw_angle|)
  0.5 * (AIR_DENSITY : ℝ) * s.velocity ^ 2 * cd_adjusted * s.frontal_area

/-- `_ground_effect_factor`: piecewise ride-height multiplier. -/
def ground_effect_factor (ride_height_mm : ℝ) : ℝ :=
  if ride_height_mm < 5 then 0.8 + 0.04 * ride_height_mm
  else if ride_height_mm ≤ 12 then 1.0 + 0.3 * (12 - ride_height_mm) / 12
  else 1.0 + 0.3 * Real.exp (-(ride_height_mm - 12) / 50)

/-- `_wing_efficiency`: linear ramp below the 40-degree stall, 0.3 after. -/
def wing_efficiency (angle_degrees : ℝ) : ℝ :=
  if angle_degrees < 40 then min (0.5 + angle_degrees / 25 * 0.5) 1.0
  else 0.3

/-- `calculate_downforce`: returns (front, rear, total) downforce. -/
def calculate_downforce (s : AeroState) : ℝ × ℝ × ℝ :=
  let cl_front_eff := s.lift_coefficient_front * ground_effect_factor s.ride_height_front *
    wing_efficiency s.wing_angle_front
  let cl_rear_eff := s.lift_coefficient_rear * ground_effect_factor s.ride_height_rear *
    wing_efficiency s.wing_angle_rear
  let dynamic_pressure := 0.5 * (AIR_DENSITY : ℝ) * s.velocity ^ 2 * s.frontal_area
  (dynamic_pressure * cl_front_eff, dynamic_pressure * cl_rear_eff,
    dynamic_pressure * cl_front_eff + dynamic_pressure * cl_rear_eff)

/-- `calculate_lift_to_drag_ratio`: total downforce over drag, 0 when drag
is not positive. -/
def calculate_lift_to_drag_ratio (s : AeroState) : ℝ :=
  if 0 < calculate_drag_force s then (calculate_downforce s).2.2 / calculate_drag_force s
  else 0

/-- `calculate_aerodynamic_balance`: front share of downforce in percent,
50.0 when total downforce is not positive. -/
def calculate_aerodynamic_balance (s : AeroState) : ℝ :=
  if 0 < (calculate_downforce s).2.2 then
    (calculate_downforce s).1 / (calculate_downforce s).2.2 * 100
  else 50.0

/-- `calculate_drs_effect`.  With DRS open the speed-gain estimate divides
`drag_drs` by `drag_normal`; Python raises `ZeroDivisionError` when
`drag_normal` is zero, modelled as `none`. -/
def calculate_drs_effect (s : AeroState) (drs_open : Bool) : Option (ℝ × ℝ × ℝ) :=
  if drs_open = false then some (0.0, 0.0, 0.0)
  else
    let drag_reduction := 0.10 * s.drag_coefficient
    let downforce_loss := 0.15 * s.lift_coefficient_rear
    let drag_normal := calculate_drag_force s
    let drag_drs := drag_normal * 0.90
    if drag_normal = 0 then none
    else some (drag_reduction, downforce_loss,
      |s.velocity * 3.6 * (1 - Real.sqrt (drag_drs / drag_normal))|)

/-- `optimize_for_track` result: the canned aero preset. -/
structure OptimalAero where
  drag_coefficient : ℝ
  cl_front : ℝ
  cl_rear : ℝ
  front_wing_angle : ℝ
  rear_wing_angle : ℝ
  ride_height_front : ℝ
  ride_height_rear : ℝ

/-- Python `==` between the value of the `downforce_level` key of
`track_config.__dict__` — the plain `DownforceLevel` Enum member, not its
`.value` string — and a string literal.  `Enum.__eq__` only equates enum
members, so the comparison is `False` for every member and every string
(e.g. `DownforceLevel.LOW == "low"` evaluates to `False` in Python). -/
def downforceLevelEqStr (_ : DownforceLevel) (_ : String) : Bool := false

/-- `optimize_for_track` as executed on the `analyze_circuit` path: the
argument is `track_config.__dict__`, whose `downforce_level` entry is the
Enum member itself, so both string comparisons are always false and every
call falls through to the final `else` — the medium preset. -/
def optimize_for_track (level : DownforceLevel) : OptimalAero :=
  if downforceLevelEqStr level "low" then ⟨0.68, 1.2, 1.6, 15, 18, 15, 18⟩
  else if downforceLevelEqStr level "high" then ⟨0.75, 1.8, 2.4, 30, 35, 8, 10⟩
  else ⟨0.70, 1.5, 2.0, 22, 26, 12, 14⟩

/-! ## Lap-time simulator (physics/lap_time_simulator.py) -/

/-- `CarParameters` dataclass with its defaults. -/
structure CarParameters where
  mass : ℝ := (F1_CAR_MASS : ℝ)
  power : ℝ := 745000
  frontal_area : ℝ := 1.4
  drag_coefficient : ℝ := 0.70
  cl_front : ℝ := 1.5
  cl_rear : ℝ := 2.0
  tire_friction : ℝ := 2.0
  brake_force : ℝ := 25000
  front_wing_angle : ℝ := 22.0
  rear_wing_angle : ℝ := 26.0
  ride_height_front : ℝ := 12.0
  ride_height_rear : ℝ := 14.0

/-- The `AeroState(...)` construction both simulator phases perform. -/
def aeroStateOf (p : CarParameters) (v : ℝ) : AeroState :=
  { velocity := v
    drag_coefficient := p.drag_coefficient
    lift_coefficient_front := p.cl_front
    lift_coefficient_rear := p.cl_rear
    frontal_area := p.frontal_area
    ride_height_front := p.ride_height_front
    ride_height_rear := p.ride_height_rear
    wing_angle_front := p.front_wing_angle
    wing_angle_rear := p.rear_wing_angle }

/-- State of the straight-line integrator. -/
structure SimState where
  velocity : ℝ
  position : ℝ
  time : ℝ

/-- One body iteration of `_simulate_straight`: engine force over floored
velocity, drag, Euler step, 100 m/s clamp, position and time update. -/
def straight_step (p : CarParameters) (s : SimState) : SimState :=
  let drag := calculate_drag_force (aeroStateOf p s.velocity)
  let engine_force := p.power / max s.velocity 0.1
  let acceleration := (engine_force - drag) / p.mass
  let v := min (s.velocity + acceleration * 0.1) 100
  { velocity := v, position := s.position + v * 0.1, time := s.time + 0.1 }

/-- Fuel-indexed `while position < distance and time < 60` loop. -/
def straight_loop (p : CarParameters) (distance : ℝ) : ℕ → SimState → SimState
  | 0, s => s
  | n + 1, s =>
      if s.position < distance ∧ s.time < 60 then
        straight_loop p distance n (straight_step p s)
      else s

/-- `_simulate_straight`: runs the loop from `(v, pos, t) = (50, 0, 0)`.
Fuel 600 is exact: the guard `time < 60` with `time` advancing by 0.1 per
iteration stops the Python loop within 600 iterations
(`straight_loop_fuel_stable` below). -/
def simulate_straight (p : CarParameters) (distance : ℝ) : ℝ :=
  (straight_loop p distance 600 ⟨50, 0, 0⟩).time

/-- One corner of `_simulate_corners`.  `none` models the Python exceptions:
`math.sqrt` of a negative argument (`ValueError`) and division of the arc
length by a zero corner speed (`ZeroDivisionError`). -/
def corner_one (p : CarParameters) (avg_radius : ℝ) (i : ℕ) : Option ℝ :=
  let radius_factor : ℝ := 0.7 + 0.6 * ((i % 3 : ℕ) : ℝ) / 2
  let corner_radius := avg_radius * radius_factor
  let vEstSq := p.tire_friction * (GRAVITY : ℝ) * corner_radius
  if vEstSq < 0 then none
  else
    let v_estimate := Real.sqrt vEstSq
    let downforce := (calculate_downforce (aeroStateOf p v_estimate)).2.2
    let normal_force := p.mass * (GRAVITY : ℝ) + downforce
    let max_lat_accel := p.tire_friction * normal_force / p.mass
    let vMaxSq := max_lat_accel * corner_radius
    if vMaxSq < 0 then none
    else
      let v_max := Real.sqrt vMaxSq
      if v_max = 0 then none
      else
        let arc_length := Real.pi / 2 * corner_radius
        let corner_time := arc_length / v_max
        let v_entry := min 70 (v_estimate * 1.3)
        let brake_decel := p.brake_force / p.mass
        let brake_time := if v_max < v_entry then (v_entry - v_max) / brake_decel else 0
        let accel_time := |v_estimate * 0.3 / 10|
        some (corner_time + |brake_time| + accel_time)

/-- `_simulate_corners`: sums the per-corner times; a raising corner makes
the whole call raise. -/
def simulate_corners (p : CarParameters) (corner_count : ℕ) (avg_radius : ℝ) : Option ℝ :=
  (List.range corner_count).foldl
    (fun acc i =>
      match acc, corner_one p avg_radius i with
      | some t, some c => some (t + c)
      | _, _ => none)
    (some 0)

/-- Track fields read by `simulate_lap` from the track-config dictionary. -/
structure TrackShape where
  circuit_length : ℝ
  corner_count : ℕ
  longest_straight : ℝ

/-- `f"{minutes}:{seconds:06.3f}"` of a nonnegative lap time. -/
def format_lap_time (t : ℝ) : String :=
  let minutes : ℕ := (⌊t / 60⌋).toNat
  let ms : ℕ := (round ((t - 60 * (minutes : ℝ)) * 1000)).toNat
  String.mk (minutes.repr.data ++ ':' :: msDigits ms)

/-- Result dictionary of `simulate_lap`. -/
structure LapResult where
  lap_time : String
  lap_time_seconds : ℝ
  straight_time : ℝ
  corner_time : ℝ

/-- `simulate_lap`: straight phase plus corner phase, optional race-mode
multipliers, formatted output.  `none` models a propagated exception from
the corner phase. -/
def simulate_lap (p : CarParameters) (track : TrackShape) (race_mode : Bool) :
    Option LapResult :=
  let circuit_length := track.circuit_length * 1000
  let total_straight_distance := track.longest_straight * 1.5
  let corner_distance := circuit_length - total_straight_distance
  let avg_corner_radius := corner_distance / ((track.corner_count : ℝ) * Real.pi / 2)
  let straight_time := simulate_straight p total_straight_distance
  (simulate_corners p track.corner_count avg_corner_radius).map fun corner_time =>
    let subtotal := straight_time + corner_time
    let total := if race_mode then subtotal * 1.007 * 1.003 else subtotal
    { lap_time := format_lap_time total
      lap_time_seconds := total
      straight_time := straight_time
      corner_time := corner_time }

/-- `predict_optimal_laptime`: the two formatted lap times (quali, race). -/
def predict_optimal_laptime (p : CarParameters) (track : TrackShape) :
    Option (String × String) :=
  match simulate_lap p track false, simulate_lap p track true with
  | some q, some r => some (q.lap_time, r.lap_time)
  | _, _ => none

/-! ## Circuit analyzer (physics/circuit_analyzer.py) -/

/-- Caller-supplied aero configuration dictionary: each key optional. -/
structure AeroConfig where
  drag_coefficient : Option ℝ := none
  cl_front : Option ℝ := none
  cl_rear : Option ℝ := none
  front_wing_angle : Option ℝ := none
  rear_wing_angle : Option ℝ := none
  ride_height_front : Option ℝ := none
  ride_height_rear : Option ℝ := none

/-- `CarParameters(...)` built by `analyze_circuit` from the current config
with its documented defaults. -/
def carFromConfig (c : AeroConfig) : CarParameters :=
  { drag_coefficient := c.drag_coefficient.getD 0.70
    cl_front := c.cl_front.getD 1.5
    cl_rear := c.cl_rear.getD 2.0
    front_wing_angle := c.front_wing_angle.getD 22
    rear_wing_angle := c.rear_wing_angle.getD 26
    ride_height_front := c.ride_height_front.getD 12
    ride_height_rear := c.ride_height_rear.getD 14 }

/-- The optimal `CarParameters` built by `analyze_circuit` (mass and power
copied from the current parameters, aero fields from the preset). -/
def carFromOptimal (base : CarParameters) (o : OptimalAero) : CarParameters :=
  { mass := base.mass
    power := base.power
    drag_coefficient := o.drag_coefficient
    cl_front := o.cl_front
    cl_rear := o.cl_rear
    front_wing_angle := o.front_wing_angle
    rear_wing_angle := o.rear_wing_angle
    ride_height_front := o.ride_height_front
    ride_height_rear := o.ride_height_rear }

/-- Decimal fraction parser for the seconds part of a lap-time string
(models `float(...)` on the strings this code produces). -/
def parseDecimal? (s : String) : Option ℚ :=
  match s.splitOn "." with
  | [a] => a.toNat?.map (fun n => (n : ℚ))
  | [a, b] =>
    match a.toNat?, b.toNat? with
    | some x, some y => some ((x : ℚ) + (y : ℚ) / (10 : ℚ) ^ b.length)
    | _, _ => none
  | _ => none

/-- `_parse_laptime`: `M:SS.mmm` to seconds, any parse failure falls back
to 90.0 (the bare `except` in the source). -/
def parse_laptime (s : String) : ℝ :=
  match s.splitOn ":" with
  | m :: sec :: _ =>
    match m.toInt?, parseDecimal? sec with
    | some mi, some se => (mi : ℝ) * 60 + ((se : ℚ) : ℝ)
    | _, _ => 90.0
  | _ => 90.0

/-- `_estimate_top_speed` averaging iteration (10 rounds from 90 m/s). -/
def top_speed_loop (p : CarParameters) : ℕ → ℝ → ℝ
  | 0, v => v
  | n + 1, v =>
      top_speed_loop p n
        ((v + p.power / (0.5 * 1.225 * v ^ 2 * p.drag_coefficient * p.frontal_area)) / 2)

/-- `_estimate_top_speed` in km/h. -/
def estimate_top_speed (p : CarParameters) : ℝ :=
  top_speed_loop p 10 90 * 3.6

/-- `_estimate_corner_speed`: lateral-grip corner speed at a 50 m radius. -/
def estimate_corner_speed (p : CarParameters) : ℝ :=
  let v_estimate : ℝ := 40
  let downforce_at_v :=
    0.5 * 1.225 * v_estimate ^ 2 * (p.cl_front + p.cl_rear) * p.frontal_area
  let normal_force := p.mass * 9.81 + downforce_at_v
  let max_lat_accel := p.tire_friction * normal_force / p.mass
  Real.sqrt (max_lat_accel * 50) * 3.6

/-- The five-key `optimal_config` dictionary of the analysis result. -/
structure OptimalConfigOut where
  drag_coefficient : ℝ
  cl_front : ℝ
  cl_rear : ℝ
  front_wing_angle : ℝ
  rear_wing_angle : ℝ
deriving Inhabited

/-- `setup_recommendations` (the source formats these values as strings;
the raw numeric content and the level label are modelled). -/
structure SetupRecommendations where
  front_wing : ℝ
  rear_wing : ℝ
  ride_front : ℝ
  ride_rear : ℝ
  downforce_level : String

/-- `CircuitAnalysis` dataclass. -/
structure CircuitAnalysis where
  track_name : String
  qualifying_lap_time : String
  race_lap_time : String
  optimal_config : OptimalConfigOut
  time_gain_quali : ℝ
  time_gain_race : ℝ
  downforce_requirement : String
  top_speed_estimate : ℝ
  avg_corner_speed : ℝ
  top_speed : ℝ
  setup_recommendations : SetupRecommendations
  critical_corners : List String

/-- The `CircuitAnalysis(...)` construction performed by `analyze_circuit`
once all four lap-time strings are available. -/
def mkCircuitAnalysis (t : TrackConfig) (current_quali current_race optimal_quali
    optimal_race : String) (optimal_params : CarParameters) : CircuitAnalysis :=
  { track_name := t.name
    qualifying_lap_time := optimal_quali
    race_lap_time := optimal_race
    optimal_config :=
      { drag_coefficient := optimal_params.drag_coefficient
        cl_front := optimal_params.cl_front
        cl_rear := optimal_params.cl_rear
        front_wing_angle := optimal_params.front_wing_angle
        rear_wing_angle := optimal_params.rear_wing_angle }
    time_gain_quali := parse_laptime current_quali - parse_laptime optimal_quali
    time_gain_race := parse_laptime current_race - parse_laptime optimal_race
    downforce_requirement := t.downforce_level.value
    top_speed_estimate := estimate_top_speed optimal_params
    avg_corner_speed := estimate_corner_speed optimal_params
    top_speed := estimate_top_speed optimal_params
    setup_recommendations :=
      { front_wing := optimal_params.front_wing_angle
        rear_wing := optimal_params.rear_wing_angle
        ride_front := optimal_params.ride_height_front
        ride_rear := optimal_params.ride_height_rear
        downforce_level := t.downforce_level.value }
    critical_corners := ["Medium-speed corners - balanced setup"] }

/-- The shape summary `simulate_lap` reads from a registry entry. -/
def trackShapeOf (t : TrackConfig) : TrackShape :=
  ⟨(t.circuit_length : ℝ), t.corner_count, (t.longest_straight : ℝ)⟩

/-- Body of `analyze_circuit` after the successful track lookup; `none`
models a propagated simulation exception. -/
def analyze_on_track (t : TrackConfig) (cfg : AeroConfig) : Option CircuitAnalysis :=
  let current_params := carFromConfig cfg
  let optimal_params := carFromOptimal current_params (optimize_for_track t.downforce_level)
  match predict_optimal_laptime current_params (trackShapeOf t),
      predict_optimal_laptime optimal_params (trackShapeOf t) with
  | some (cq, cr), some (oq, orr) => some (mkCircuitAnalysis t cq cr oq orr optimal_params)
  | _, _ => none

/-- Error taxonomy of `analyze_circuit`: the `ValueError` for an unknown
track name, or a propagated simulation exception. -/
inductive AnalyzeError where
  | trackNotFound (name : String)
  | simulationFailed
deriving DecidableEq

/-- `analyze_circuit`: lookup, then the analysis body. -/
def analyze_circuit (track_name : String) (cfg : AeroConfig) :
    Except AnalyzeError CircuitAnalysis :=
  match get_track_by_name track_name with
  | none => .error (.trackNotFound track_name)
  | some t =>
    match analyze_on_track t cfg with
    | some a => .ok a
    | none => .error .simulationFailed

/-- Counterexample car, lower drag coefficient. -/
def cexCarLow : CarParameters :=
  { mass := 1, power := 40, frontal_area := 1, drag_coefficient := 1998 / 6125,
    cl_front := 1.5, cl_rear := 2.0, tire_friction := 2.0, brake_force := 25000,
    front_wing_angle := 25, rear_wing_angle := 25,
    ride_height_front := 12, ride_height_rear := 12 }

/-- Counterexample car, higher drag coefficient; all other fields agree
with `cexCarLow`. -/
def cexCarHigh : CarParameters :=
  { mass := 1, power := 40, frontal_area := 1, drag_coefficient := 10006 / 30625,
    cl_front := 1.5, cl_rear := 2.0, tire_friction := 2.0, brake_force := 25000,
    front_wing_angle := 25, rear_wing_angle := 25,
    ride_height_front := 12, ride_height_rear := 12 }

/-- Counterexample track configuration: 4.6 m circuit, one corner, 2.4 m
longest straight (so the straight-phase distance is 3.6 m). -/
def cexTrack : TrackShape := ⟨0.0046, 1, 2.4⟩

/-- Projected lap seconds of an optional simulation result. -/
def lapSecondsD (o : Option LapResult) : ℝ := (o.map LapResult.lap_time_seconds).getD 0

/-- The registry entry for Monza (key "Italy"). -/
def monzaConfig : TrackConfig :=
  ⟨"Autodromo Nazionale di Monza", q 5793 1000, 11, .low, 1150⟩

/-- The Monza shape as real literals (5.793 km, 11 corners, 1150 m). -/
def monzaShape : TrackShape := ⟨5.793, 11, 1150⟩

end

/-! ## Shared helper lemmas -/

lemma sqrt_between {x a b : ℝ} (ha : 0 ≤ a) (hb : 0 ≤ b) (h1 : a ^ 2 ≤ x)
    (h2 : x ≤ b ^ 2) : a ≤ Real.sqrt x ∧ Real.sqrt x ≤ b := by
  constructor
  · have h := Real.sqrt_le_sqrt h1
    rwa [Real.sqrt_sq ha] at h
  · have h := Real.sqrt_le_sqrt h2
    rwa [Real.sqrt_sq hb] at h

lemma exp_neg_one_div_25_bounds :
    (0.96 : ℝ) ≤ Real.exp (-(1 / 25)) ∧ Real.exp (-(1 / 25)) ≤ 25 / 26 := by
  constructor
  · have h := Real.add_one_le_exp (-(1 / 25) : ℝ)
    linarith
  · have h : (26 / 25 : ℝ) ≤ Real.exp (1 / 25) := by
      have := Real.add_one_le_exp ((1 / 25 : ℝ))
      linarith
    have hpos : (0 : ℝ) < 26 / 25 := by norm_num
    have := one_div_le_one_div_of_le hpos h
    rw [Real.exp_neg]
    rw [← one_div]
    calc 1 / Real.exp (1 / 25) ≤ 1 / (26 / 25 : ℝ) := this
      _ = 25 / 26 := by norm_num

lemma ground_effect_factor_at_5 : ground_effect_factor 5 = 1.175 := by
  unfold ground_effect_factor
  rw [if_neg (by norm_num), if_pos (by norm_num)]
  norm_num

lemma ground_effect_factor_at_12 : ground_effect_factor 12 = 1 := by
  unfold ground_effect_factor
  rw [if_neg (by norm_num), if_pos (by norm_num)]
  norm_num

lemma ground_effect_factor_pos {h : ℝ} (hh : 0 ≤ h) : 0 < ground_effect_factor h := by
  unfold ground_effect_factor
  split_ifs with h1 h2
  · linarith
  · push_neg at h1
    nlinarith
  · have := Real.exp_pos (-(h - 12) / 50)
    linarith

lemma wing_efficiency_pos {a : ℝ} (ha : 0 ≤ a) : 0 < wing_efficiency a := by
  unfold wing_efficiency
  split_ifs
  · exact lt_min (by linarith) (by norm_num)
  · norm_num

lemma ground_effect_not_contAt_5 : ¬ContinuousAt ground_effect_factor 5 := by
  intro hc
  rw [Metric.continuousAt_iff] at hc
  obtain ⟨δ, hδ, H⟩ := hc 0.1 (by norm_num)
  have hmin : 0 < min δ 1 := lt_min hδ one_pos
  have hmin1 : min δ 1 ≤ 1 := min_le_right _ _
  have hmd : min δ 1 ≤ δ := min_le_left _ _
  have hdist : dist (5 - min δ 1 / 2) (5 : ℝ) < δ := by
    rw [Real.dist_eq]
    rw [abs_of_nonpos (by linarith)]
    linarith
  have hfx : ground_effect_factor (5 - min δ 1 / 2) = 0.8 + 0.04 * (5 - min δ 1 / 2) := by
    unfold ground_effect_factor
    rw [if_pos (by linarith)]
  have hlt := H hdist
  rw [Real.dist_eq, hfx, ground_effect_factor_at_5] at hlt
  have habs := abs_lt.mp hlt
  have : 0.04 * (5 - min δ 1 / 2) ≤ 0.2 := by nlinarith
  linarith [habs.2]

lemma ground_effect_not_contAt_12 : ¬ContinuousAt ground_effect_factor 12 := by
  intro hc
  rw [Metric.continuousAt_iff] at hc
  obtain ⟨δ, hδ, H⟩ := hc 0.1 (by norm_num)
  have hmin : 0 < min δ 1 := lt_min hδ one_pos
  have hmin1 : min δ 1 ≤ 1 := min_le_right _ _
  have hmd : min δ 1 ≤ δ := min_le_left _ _
  have hdist : dist (12 + min δ 1 / 2) (12 : ℝ) < δ := by
    rw [Real.dist_eq]
    rw [abs_of_nonneg (by linarith)]
    linarith
  have hfx : ground_effect_factor (12 + min δ 1 / 2) =
      1.0 + 0.3 * Real.exp (-(12 + min δ 1 / 2 - 12) / 50) := by
    unfold ground_effect_factor
    rw [if_neg (by push_neg; linarith), if_neg (by push_neg; linarith)]
  have hexp : (0.99 : ℝ) ≤ Real.exp (-(12 + min δ 1 / 2 - 12) / 50) := by
    have h := Real.add_one_le_exp (-(12 + min δ 1 / 2 - 12) / 50 : ℝ)
    have : -(12 + min δ 1 / 2 - 12) / 50 ≥ -(0.01 : ℝ) := by nlinarith
    linarith
  have hlt := H hdist
  rw [Real.dist_eq, hfx, ground_effect_factor_at_12] at hlt
  have habs := abs_lt.mp hlt
  linarith [habs.2]

/-! ## Claim C3 (code bug evidence) -/

lemma drag_force_zero_velocity (p : CarParameters) :
    calculate_drag_force (aeroStateOf p 0) = 0 := by
  unfold calculate_drag_force aeroStateOf
  norm_num

/-- Claim C3: the spec says every public force-model function must accept
velocity 0 without raising; the code divides the DRS drag by the normal
drag, which is zero at velocity 0, so `calculate_drs_effect` with DRS open
raises `ZeroDivisionError` there (modelled as `none`). -/
theorem drs_effect_zero_velocity_raises :
    calculate_drs_effect (aeroStateOf {} 0) true = none := by
  have hd := drag_force_zero_velocity ({} : CarParameters)
  unfold calculate_drs_effect
  simp [hd]

/-! ## Claim C4 (counterexample and amended statement) -/

/-- Claim C4 counterexample: `_ground_effect_factor` is not continuous.  At
the 5 mm boundary the low branch yields 1.0 while the function value is
1.175; at 12 mm the function value is 1.0 while the upper branch tends to
1.3; the function is discontinuous at both points. -/
theorem ground_effect_boundary_mismatch :
    ground_effect_factor 5 = 1.175 ∧ (0.8 + 0.04 * (5 : ℝ)) = 1 ∧
    ground_effect_factor 12 = 1 ∧
    (1.0 + 0.3 * Real.exp (-((12 : ℝ) - 12) / 50)) = 1.3 ∧
    ¬ContinuousAt ground_effect_factor 5 ∧ ¬ContinuousAt ground_effect_factor 12 := by
  refine ⟨ground_effect_factor_at_5, by norm_num, ground_effect_factor_at_12, ?_,
    ground_effect_not_contAt_5, ground_effect_not_contAt_12⟩
  norm_num

/-- Claim C4 amended: the factor is strictly positive for all nonnegative
ride heights and each branch is well defined, but the adjacent branches do
not agree at the piecewise boundaries: the jump at 5 mm is 0.175 and the
jump at 12 mm is 0.3. -/
theorem ground_effect_positive_with_jumps :
    (∀ h : ℝ, 0 ≤ h → 0 < ground_effect_factor h) ∧
    ground_effect_factor 5 - (0.8 + 0.04 * (5 : ℝ)) = 0.175 ∧
    (1.0 + 0.3 * Real.exp (-((12 : ℝ) - 12) / 50)) - ground_effect_factor 12 = 0.3 := by
  refine ⟨fun h hh => ground_effect_factor_pos hh, ?_, ?_⟩
  · rw [ground_effect_factor_at_5]
    norm_num
  · rw [ground_effect_factor_at_12]
    norm_num

theorem ground_effect_positive_with_jumps_witness :
    (0 : ℝ) ≤ 7 ∧ 0 < ground_effect_factor 7 :=
  ⟨by norm_num, ground_effect_positive_with_jumps.1 7 (by norm_num)⟩

/-! ## Claim C6 -/

/-- Claim C6: `calculate_lift_to_drag_ratio` returns exactly 0 whenever the
drag force is 0, and `calculate_aerodynamic_balance` returns exactly 50.0
whenever the total downforce is 0 (no exception in either case). -/
theorem degenerate_denominator_guards (s : AeroState) :
    (calculate_drag_force s = 0 → calculate_lift_to_drag_ratio s = 0) ∧
    ((calculate_downforce s).2.2 = 0 → calculate_aerodynamic_balance s = 50.0) := by
  constructor
  · intro h
    unfold calculate_lift_to_drag_ratio
    simp [h]
  · intro h
    unfold calculate_aerodynamic_balance
    simp [h]

theorem degenerate_denominator_guards_witness :
    calculate_lift_to_drag_ratio (aeroStateOf {} 0) = 0 ∧
    calculate_aerodynamic_balance (aeroStateOf {} 0) = 50.0 := by
  have h := degenerate_denominator_guards (aeroStateOf {} 0)
  refine ⟨h.1 (drag_force_zero_velocity {}), h.2 ?_⟩
  unfold calculate_downforce aeroStateOf
  norm_num

/-! ## Claim C7 -/

/-- Claim C7: the wing stall cliff.  `wing_efficiency 39.9` exceeds
`wing_efficiency 40`, and every angle at or beyond 40 degrees yields the
fixed post-stall value 0.3. -/
theorem wing_stall_cliff :
    wing_efficiency 40 < wing_efficiency 39.9 ∧
    ∀ a : ℝ, 40 ≤ a → wing_efficiency a = 0.3 := by
  constructor
  · unfold wing_efficiency
    rw [if_neg (by norm_num), if_pos (by norm_num)]
    rw [min_eq_right (by norm_num)]
    norm_num
  · intro a ha
    unfold wing_efficiency
    rw [if_neg (by push_neg; linarith)]

theorem wing_stall_cliff_witness :
    wing_efficiency 40 < wing_efficiency 39.9 ∧ wing_efficiency 55 = 0.3 :=
  ⟨wing_stall_cliff.1, wing_stall_cliff.2 55 (by norm_num)⟩

/-! ## Straight-line loop: basic lemmas -/

lemma straight_loop_cont {p : CarParameters} {d : ℝ} {n : ℕ} {s : SimState}
    (h : s.position < d ∧ s.time < 60) :
    straight_loop p d (n + 1) s = straight_loop p d n (straight_step p s) := by
  rw [straight_loop, if_pos h]

lemma straight_loop_stop {p : CarParameters} {d : ℝ} {n : ℕ} {s : SimState}
    (h : ¬(s.position < d ∧ s.time < 60)) :
    straight_loop p d n s = s := by
  cases n with
  | zero => rfl
  | succ n => rw [straight_loop, if_neg h]

/-! ## Claim C2 (counterexample data and evaluation) -/

noncomputable section

lemma cex_high_step1 : straight_step cexCarHigh ⟨50, 0, 0⟩ = ⟨0.05, 0.005, 0.1⟩ := by
  simp only [straight_step, calculate_drag_force, aeroStateOf, cexCarHigh]
  norm_num [AIR_DENSITY, max_def, min_def]

lemma cex_high_step2 :
    straight_step cexCarHigh ⟨0.05, 0.005, 0.1⟩ = ⟨40.04994997, 4.009994997, 0.2⟩ := by
  simp only [straight_step, calculate_drag_force, aeroStateOf, cexCarHigh]
  norm_num [AIR_DENSITY, max_def, min_def]

lemma cex_low_step1 : straight_step cexCarLow ⟨50, 0, 0⟩ = ⟨0.13, 0.013, 0.1⟩ := by
  simp only [straight_step, calculate_drag_force, aeroStateOf, cexCarLow]
  norm_num [AIR_DENSITY, max_def, min_def]

lemma cex_low_step2 :
    straight_step cexCarLow ⟨0.13, 0.013, 0.1⟩ =
      ⟨200842805197 / 6500000000, 201687805197 / 65000000000, 0.2⟩ := by
  simp only [straight_step, calculate_drag_force, aeroStateOf, cexCarLow]
  norm_num [AIR_DENSITY, max_def, min_def]

lemma cex_high_straight : simulate_straight cexCarHigh 3.6 = 0.2 := by
  unfold simulate_straight
  rw [show (600 : ℕ) = 599 + 1 from rfl, straight_loop_cont (by norm_num)]
  rw [cex_high_step1]
  rw [show (599 : ℕ) = 598 + 1 from rfl, straight_loop_cont (by norm_num)]
  rw [cex_high_step2]
  rw [straight_loop_stop (by norm_num)]

lemma cex_low_straight : simulate_straight cexCarLow 3.6 = 0.3 := by
  unfold simulate_straight
  rw [show (600 : ℕ) = 599 + 1 from rfl, straight_loop_cont (by norm_num)]
  rw [cex_low_step1]
  rw [show (599 : ℕ) = 598 + 1 from rfl, straight_loop_cont (by norm_num)]
  rw [cex_low_step2]
  rw [show (598 : ℕ) = 597 + 1 from rfl, straight_loop_cont (by norm_num)]
  rw [straight_loop_stop ?stop]
  case stop =>
    simp only [straight_step, calculate_drag_force, aeroStateOf, cexCarLow]
    norm_num [AIR_DENSITY, max_def, min_def]
  simp only [straight_step]
  norm_num

lemma cex_corner_eq (r : ℝ) (i : ℕ) : corner_one cexCarHigh r i = corner_one cexCarLow r i := rfl

/-- General well-definedness of a corner: with positive tire friction and
mass, nonnegative aero inputs and a positive average radius, the corner
phase raises no exception. -/
lemma corner_one_some (p : CarParameters) (r : ℝ) (i : ℕ)
    (hμ : 0 < p.tire_friction) (hm : 0 < p.mass) (hA : 0 ≤ p.frontal_area)
    (hcf : 0 ≤ p.cl_front) (hcr : 0 ≤ p.cl_rear)
    (hhf : 0 ≤ p.ride_height_front) (hhr : 0 ≤ p.ride_height_rear)
    (haf : 0 ≤ p.front_wing_angle) (har : 0 ≤ p.rear_wing_angle)
    (hr : 0 < r) : ∃ t, corner_one p r i = some t := by
  unfold corner_one
  have hg : (0 : ℝ) < (GRAVITY : ℝ) := by norm_num [GRAVITY]
  have hrf : (0 : ℝ) < 0.7 + 0.6 * ((i % 3 : ℕ) : ℝ) / 2 := by positivity
  have hcrad : 0 < r * (0.7 + 0.6 * ((i % 3 : ℕ) : ℝ) / 2) := mul_pos hr hrf
  have hvE : 0 ≤ p.tire_friction * (GRAVITY : ℝ) * (r * (0.7 + 0.6 * ((i % 3 : ℕ) : ℝ) / 2)) := by
    positivity
  rw [if_neg (not_lt.mpr hvE)]
  have hdf : 0 ≤ (calculate_downforce
      (aeroStateOf p (Real.sqrt (p.tire_friction * (GRAVITY : ℝ) *
        (r * (0.7 + 0.6 * ((i % 3 : ℕ) : ℝ) / 2)))))).2.2 := by
    unfold calculate_downforce aeroStateOf
    simp only
    have h1 : 0 < ground_effect_factor p.ride_height_front := ground_effect_factor_pos hhf
    have h2 : 0 < ground_effect_factor p.ride_height_rear := ground_effect_factor_pos hhr
    have h3 : 0 < wing_efficiency p.front_wing_angle := wing_efficiency_pos haf
    have h4 : 0 < wing_efficiency p.rear_wing_angle := wing_efficiency_pos har
    have h5 : (0 : ℝ) ≤ (AIR_DENSITY : ℝ) := by norm_num [AIR_DENSITY]
    positivity
  have hnf : 0 < p.mass * (GRAVITY : ℝ) + (calculate_downforce
      (aeroStateOf p (Real.sqrt (p.tire_friction * (GRAVITY : ℝ) *
        (r * (0.7 + 0.6 * ((i % 3 : ℕ) : ℝ) / 2)))))).2.2 := by
    have := mul_pos hm hg
    linarith
  have hml : 0 < p.tire_friction * (p.mass * (GRAVITY : ℝ) + (calculate_downforce
      (aeroStateOf p (Real.sqrt (p.tire_friction * (GRAVITY : ℝ) *
        (r * (0.7 + 0.6 * ((i % 3 : ℕ) : ℝ) / 2)))))).2.2) / p.mass := by
    exact div_pos (mul_pos hμ hnf) hm
  have hvM : 0 < p.tire_friction * (p.mass * (GRAVITY : ℝ) + (calculate_downforce
      (aeroStateOf p (Real.sqrt (p.tire_friction * (GRAVITY : ℝ) *
        (r * (0.7 + 0.6 * ((i % 3 : ℕ) : ℝ) / 2)))))).2.2) / p.mass *
      (r * (0.7 + 0.6 * ((i % 3 : ℕ) : ℝ) / 2)) := mul_pos hml hcrad
  rw [if_neg (not_lt.mpr hvM.le)]
  rw [if_neg (by simpa using (Real.sqrt_pos.mpr hvM).ne.symm)]
  exact ⟨_, rfl⟩

/-- Claim C2 counterexample: two `CarParameters` identical except for the
drag coefficient, and a track configuration, on which `simulate_lap` with
the **higher** drag coefficient returns a strictly **smaller**
`lap_time_seconds` (same `race_mode = false` in both runs).  The discrete
integrator lets the higher-drag car dip below the 0.1 m/s velocity floor,
where the engine-force term `power / max(v, 0.1)` gives it a much larger
kick than the lower-drag car receives. -/
theorem drag_monotonicity_counterexample :
    cexCarLow.drag_coefficient < cexCarHigh.drag_coefficient ∧
    cexCarLow.mass = cexCarHigh.mass ∧ cexCarLow.power = cexCarHigh.power ∧
    cexCarLow.frontal_area = cexCarHigh.frontal_area ∧
    cexCarLow.cl_front = cexCarHigh.cl_front ∧ cexCarLow.cl_rear = cexCarHigh.cl_rear ∧
    cexCarLow.tire_friction = cexCarHigh.tire_friction ∧
    cexCarLow.brake_force = cexCarHigh.brake_force ∧
    cexCarLow.front_wing_angle = cexCarHigh.front_wing_angle ∧
    cexCarLow.rear_wing_angle = cexCarHigh.rear_wing_angle ∧
    cexCarLow.ride_height_front = cexCarHigh.ride_height_front ∧
    cexCarLow.ride_height_rear = cexCarHigh.ride_height_rear ∧
    (simulate_lap cexCarHigh cexTrack false).isSome = true ∧
    (simulate_lap cexCarLow cexTrack false).isSome = true ∧
    lapSecondsD (simulate_lap cexCarHigh cexTrack false) <
      lapSecondsD (simulate_lap cexCarLow cexTrack false) := by
  have hApos : (0 : ℝ) < (cexTrack.circuit_length * 1000 - cexTrack.longest_straight * 1.5) /
      ((cexTrack.corner_count : ℝ) * Real.pi / 2) := by
    have h1 : (cexTrack.circuit_length * 1000 - cexTrack.longest_straight * 1.5 : ℝ) = 1 := by
      norm_num [cexTrack]
    have h2 : ((cexTrack.corner_count : ℝ) * Real.pi / 2) = Real.pi / 2 := by
      norm_num [cexTrack]
    rw [h1, h2]
    positivity
  obtain ⟨T, hT⟩ := corner_one_some cexCarLow
    ((cexTrack.circuit_length * 1000 - cexTrack.longest_straight * 1.5) /
      ((cexTrack.corner_count : ℝ) * Real.pi / 2)) 0
    (by norm_num [cexCarLow]) (by norm_num [cexCarLow]) (by norm_num [cexCarLow])
    (by norm_num [cexCarLow]) (by norm_num [cexCarLow]) (by norm_num [cexCarLow])
    (by norm_num [cexCarLow]) (by norm_num [cexCarLow]) (by norm_num [cexCarLow]) hApos
  have hc1 : cexTrack.corner_count = 1 := rfl
  have hcL : simulate_corners cexCarLow cexTrack.corner_count
      ((cexTrack.circuit_length * 1000 - cexTrack.longest_straight * 1.5) /
        ((cexTrack.corner_count : ℝ) * Real.pi / 2)) = some (0 + T) := by
    rw [hc1] at hT ⊢
    unfold simulate_corners
    rw [show List.range 1 = [0] from rfl, List.foldl_cons, List.foldl_nil, hT]
  have hcH : simulate_corners cexCarHigh cexTrack.corner_count
      ((cexTrack.circuit_length * 1000 - cexTrack.longest_straight * 1.5) /
        ((cexTrack.corner_count : ℝ) * Real.pi / 2)) = some (0 + T) := by
    rw [hc1] at hT ⊢
    unfold simulate_corners
    rw [show List.range 1 = [0] from rfl, List.foldl_cons, List.foldl_nil,
      cex_corner_eq, hT]
  have e1 : (cexTrack.longest_straight * 1.5 : ℝ) = 3.6 := by norm_num [cexTrack]
  refine ⟨by norm_num [cexCarLow, cexCarHigh], rfl, rfl, rfl, rfl, rfl, rfl, rfl, rfl,
    rfl, rfl, rfl, ?_, ?_, ?_⟩
  · simp only [simulate_lap, hcH]
    rfl
  · simp only [simulate_lap, hcL]
    rfl
  · simp only [simulate_lap]
    rw [hcH, hcL]
    simp only [lapSecondsD, Option.map_some', Option.getD_some, Bool.false_eq_true, if_false]
    rw [e1, cex_high_straight, cex_low_straight]
    linarith

/-- Claim C2 amended: a single straight-phase integration step from any
common state is monotone in the drag coefficient — with a nonnegative
frontal area and positive mass, the step with the higher drag coefficient
never yields a larger updated velocity — and the corner phase does not
depend on the drag coefficient at all.  The full-lap ordering claimed by
the spec fails in general (see the counterexample). -/
theorem straight_step_drag_monotone (p : CarParameters) (cd₁ cd₂ : ℝ) (s : SimState)
    (hcd : cd₁ ≤ cd₂) (hA : 0 ≤ p.frontal_area) (hm : 0 < p.mass) :
    (straight_step { p with drag_coefficient := cd₂ } s).velocity ≤
      (straight_step { p with drag_coefficient := cd₁ } s).velocity ∧
    ∀ r i, corner_one { p with drag_coefficient := cd₂ } r i =
      corner_one { p with drag_coefficient := cd₁ } r i := by
  constructor
  · simp only [straight_step, calculate_drag_force, aeroStateOf]
    simp only [abs_zero, mul_zero, add_zero]
    apply min_le_min _ le_rfl
    have hρ : (0 : ℝ) ≤ 0.5 * (AIR_DENSITY : ℝ) * s.velocity ^ 2 * p.frontal_area := by
      have : (0 : ℝ) ≤ (AIR_DENSITY : ℝ) := by norm_num [AIR_DENSITY]
      positivity
    have hdrag : 0.5 * (AIR_DENSITY : ℝ) * s.velocity ^ 2 * (cd₁ * (1 + 0.02 * 0)) *
        p.frontal_area ≤ 0.5 * (AIR_DENSITY : ℝ) * s.velocity ^ 2 * (cd₂ * (1 + 0.02 * 0)) *
        p.frontal_area := by
      nlinarith [hρ]
    have hsub : p.power / max s.velocity 0.1 -
        0.5 * (AIR_DENSITY : ℝ) * s.velocity ^ 2 * (cd₂ * (1 + 0.02 * 0)) * p.frontal_area ≤
        p.power / max s.velocity 0.1 -
        0.5 * (AIR_DENSITY : ℝ) * s.velocity ^ 2 * (cd₁ * (1 + 0.02 * 0)) * p.frontal_area := by
      linarith
    have hdiv := (div_le_div_iff_of_pos_right hm).mpr hsub
    nlinarith [hdiv]
  · intro r i
    rfl

theorem straight_step_drag_monotone_witness :
    (straight_step { ({} : CarParameters) with drag_coefficient := 0.75 } ⟨50, 0, 0⟩).velocity ≤
      (straight_step { ({} : CarParameters) with drag_coefficient := 0.70 } ⟨50, 0, 0⟩).velocity :=
  (straight_step_drag_monotone {} 0.70 0.75 ⟨50, 0, 0⟩ (by norm_num) (by norm_num)
    (by norm_num [F1_CAR_MASS])).1

/-! ## Claim C8 (straight-phase termination and clamping) -/

lemma straight_loop_time_le (p : CarParameters) (d : ℝ) :
    ∀ (n : ℕ) (s : SimState), (straight_loop p d n s).time ≤ s.time + 0.1 * n := by
  intro n
  induction n with
  | zero => intro s; simp [straight_loop]
  | succ n ih =>
    intro s
    by_cases h : s.position < d ∧ s.time < 60
    · rw [straight_loop_cont h]
      have h2 := ih (straight_step p s)
      have h3 : (straight_step p s).time = s.time + 0.1 := rfl
      rw [h3] at h2
      push_cast
      linarith
    · rw [straight_loop_stop h]
      have : (0 : ℝ) ≤ 0.1 * (n + 1 : ℕ) := by positivity
      linarith

lemma straight_loop_fuel_stable (p : CarParameters) (d : ℝ) :
    ∀ (f f' : ℕ) (s : SimState), 60 ≤ s.time + 0.1 * f → f ≤ f' →
      straight_loop p d f' s = straight_loop p d f s := by
  intro f
  induction f with
  | zero =>
    intro f' s ht _
    have hstop : ¬(s.position < d ∧ s.time < 60) := by
      rintro ⟨-, h2⟩
      push_cast at ht
      linarith
    rw [straight_loop_stop hstop, straight_loop_stop hstop]
  | succ f ih =>
    intro f' s ht hle
    obtain ⟨f'', rfl⟩ : ∃ k, f' = k + 1 := ⟨f' - 1, by omega⟩
    by_cases h : s.position < d ∧ s.time < 60
    · rw [straight_loop_cont h, straight_loop_cont h]
      apply ih
      · have h3 : (straight_step p s).time = s.time + 0.1 := rfl
        rw [h3]
        push_cast at ht ⊢
        linarith
      · omega
    · rw [straight_loop_stop h, straight_loop_stop h]

lemma straight_loop_pos_le (p : CarParameters) (d : ℝ) :
    ∀ (n : ℕ) (s : SimState), (straight_loop p d n s).position ≤
      s.position + 100 * ((straight_loop p d n s).time - s.time) := by
  intro n
  induction n with
  | zero => intro s; simp [straight_loop]
  | succ n ih =>
    intro s
    by_cases h : s.position < d ∧ s.time < 60
    · rw [straight_loop_cont h]
      have h2 := ih (straight_step p s)
      have hv : (straight_step p s).velocity ≤ 100 := min_le_right _ _
      have hpos : (straight_step p s).position = s.position + (straight_step p s).velocity * 0.1 :=
        rfl
      have h3 : (straight_step p s).time = s.time + 0.1 := rfl
      rw [hpos, h3] at h2
      linarith
    · rw [straight_loop_stop h]
      simp

lemma straight_loop_time_tricho (p : CarParameters) (d : ℝ) :
    ∀ (n : ℕ) (s : SimState), (straight_loop p d n s).time = s.time + 0.1 * n ∨
      ¬((straight_loop p d n s).position < d ∧ (straight_loop p d n s).time < 60) := by
  intro n
  induction n with
  | zero => intro s; left; simp [straight_loop]
  | succ n ih =>
    intro s
    by_cases h : s.position < d ∧ s.time < 60
    · rw [straight_loop_cont h]
      rcases ih (straight_step p s) with h2 | h2
      · left
        have h3 : (straight_step p s).time = s.time + 0.1 := rfl
        rw [h2, h3]
        push_cast
        ring
      · right
        exact h2
    · rw [straight_loop_stop h]
      right
      exact h

/-- Claim C8: for every car and nonnegative straight distance the
integration loop terminates within 600 fixed steps of 0.1 s: the returned
time never exceeds 60 s, extra fuel beyond 600 never changes the result
(so the unbounded Python loop is captured), the loop returns immediately
once the accumulated position has reached the distance, and every velocity
update is clamped to at most 100 m/s. -/
theorem straight_phase_termination (p : CarParameters) (d : ℝ) (_hd : 0 ≤ d) :
    (straight_loop p d 600 ⟨50, 0, 0⟩).time ≤ 60 ∧
    (∀ f, 600 ≤ f → straight_loop p d f ⟨50, 0, 0⟩ = straight_loop p d 600 ⟨50, 0, 0⟩) ∧
    (∀ s : SimState, d ≤ s.position → ∀ f, straight_loop p d f s = s) ∧
    (∀ s : SimState, (straight_step p s).velocity ≤ 100) := by
  refine ⟨?_, ?_, ?_, ?_⟩
  · have h := straight_loop_time_le p d 600 ⟨50, 0, 0⟩
    norm_num at h
    exact h
  · intro f hf
    exact straight_loop_fuel_stable p d 600 f ⟨50, 0, 0⟩ (by norm_num) hf
  · intro s hs f
    exact straight_loop_stop (fun hc => absurd hc.1 (not_lt.mpr hs))
  · intro s
    exact min_le_right _ _

theorem straight_phase_termination_witness :
    (straight_loop ({} : CarParameters) 1725 600 ⟨50, 0, 0⟩).time ≤ 60 ∧
    straight_loop ({} : CarParameters) 1725 700 ⟨50, 0, 0⟩ =
      straight_loop ({} : CarParameters) 1725 600 ⟨50, 0, 0⟩ := by
  have h := straight_phase_termination {} 1725 (by norm_num)
  exact ⟨h.1, h.2.1 700 (by norm_num)⟩

/-! ## Claim C10 (degenerate track geometry raises) -/

lemma simulate_corners_none_of_head (p : CarParameters) (r : ℝ) (cc : ℕ)
    (hcc : 1 ≤ cc) (h0 : corner_one p r 0 = none) : simulate_corners p cc r = none := by
  unfold simulate_corners
  obtain ⟨k, rfl⟩ : ∃ k, cc = k + 1 := ⟨cc - 1, by omega⟩
  rw [List.range_succ_eq_map, List.foldl_cons, h0]
  have hnone : ∀ (l : List ℕ), List.foldl
      (fun acc i =>
        match acc, corner_one p r i with
        | some t, some c => some (t + c)
        | _, _ => none)
      none l = none := by
    intro l
    induction l with
    | nil => rfl
    | cons a l ih => rw [List.foldl_cons]; exact ih
  exact hnone _

/-- Claim C10: whenever `1.5 * longest_straight` is at least the circuit
length in metres (so the derived corner distance and average radius are
nonpositive), `simulate_lap` raises — the square root of the negative
radius term, or the division by the zero corner speed — instead of
returning a lap time.  (Positive tire friction and at least one corner,
as in every registered configuration.) -/
theorem degenerate_track_geometry_raises (p : CarParameters) (track : TrackShape)
    (race_mode : Bool) (hμ : 0 < p.tire_friction)
    (hgeom : track.circuit_length * 1000 ≤ track.longest_straight * 1.5)
    (hcc : 1 ≤ track.corner_count) :
    simulate_lap p track race_mode = none := by
  have hg : (0 : ℝ) < (GRAVITY : ℝ) := by norm_num [GRAVITY]
  have hrad : (track.circuit_length * 1000 - track.longest_straight * 1.5) /
      ((track.corner_count : ℝ) * Real.pi / 2) ≤ 0 := by
    apply div_nonpos_of_nonpos_of_nonneg
    · linarith
    · positivity
  have h0 : corner_one p ((track.circuit_length * 1000 - track.longest_straight * 1.5) /
      ((track.corner_count : ℝ) * Real.pi / 2)) 0 = none := by
    simp only [corner_one]
    have hrf : (0.7 + 0.6 * ((0 % 3 : ℕ) : ℝ) / 2) = 0.7 := by norm_num
    rw [hrf]
    set R := (track.circuit_length * 1000 - track.longest_straight * 1.5) /
      ((track.corner_count : ℝ) * Real.pi / 2) with hR
    have hR7 : R * 0.7 ≤ 0 := by nlinarith
    rcases lt_or_eq_of_le hR7 with hlt | heq
    · rw [if_pos]
      exact mul_neg_of_pos_of_neg (mul_pos hμ hg) hlt
    · rw [heq]
      norm_num [Real.sqrt_zero]
  rw [simulate_lap, simulate_corners_none_of_head p _ track.corner_count hcc h0]
  rfl

theorem degenerate_track_geometry_raises_witness :
    simulate_lap {} ⟨1, 5, 1000⟩ false = none :=
  degenerate_track_geometry_raises {} ⟨1, 5, 1000⟩ false (by norm_num) (by norm_num)
    (by norm_num)

/-! ## Analyzer claims: shared evaluation lemmas -/

lemma q_cast (n : ℤ) (d : ℕ) (h1 : d ≠ 0) (h2 : n.natAbs.Coprime d) :
    ((q n d h1 h2 : ℚ) : ℝ) = (n : ℝ) / (d : ℝ) := by
  have hq : (q n d h1 h2 : ℚ) = (n : ℚ) / (d : ℚ) := (Rat.num_div_den _).symm
  rw [hq]
  push_cast
  ring

lemma monza_shape_eq : trackShapeOf monzaConfig = monzaShape := by
  simp only [trackShapeOf, monzaConfig, monzaShape, TrackShape.mk.injEq]
  norm_num [q_cast]

/-- The broken Enum-vs-string dispatch makes `optimize_for_track` return
the medium preset for every downforce level. -/
lemma optimize_for_track_eq_medium (level : DownforceLevel) :
    optimize_for_track level = ⟨0.70, 1.5, 2.0, 22, 26, 12, 14⟩ := rfl

lemma foldl_corner_some (p : CarParameters) (r : ℝ) :
    ∀ (l : List ℕ) (t0 : ℝ), (∀ i ∈ l, ∃ t, corner_one p r i = some t) →
      ∃ T, List.foldl
        (fun acc i =>
          match acc, corner_one p r i with
          | some t, some c => some (t + c)
          | _, _ => none) (some t0) l = some T := by
  intro l
  induction l with
  | nil => intro t0 _; exact ⟨t0, rfl⟩
  | cons a l ih =>
    intro t0 h
    obtain ⟨ta, hta⟩ := h a (List.mem_cons_self a l)
    rw [List.foldl_cons, hta]
    exact ih (t0 + ta) (fun i hi => h i (List.mem_cons_of_mem a hi))

lemma simulate_corners_some (p : CarParameters) (cc : ℕ) (r : ℝ)
    (h : ∀ i : ℕ, ∃ t, corner_one p r i = some t) :
    ∃ T, simulate_corners p cc r = some T := by
  unfold simulate_corners
  exact foldl_corner_some p r (List.range cc) 0 (fun i _ => h i)

lemma predict_optimal_laptime_some (p : CarParameters) (tr : TrackShape)
    (h : ∃ T, simulate_corners p tr.corner_count
      ((tr.circuit_length * 1000 - tr.longest_straight * 1.5) /
        ((tr.corner_count : ℝ) * Real.pi / 2)) = some T) :
    ∃ s1 s2, predict_optimal_laptime p tr = some (s1, s2) := by
  obtain ⟨T, hT⟩ := h
  unfold predict_optimal_laptime
  simp only [simulate_lap]
  rw [hT]
  exact ⟨_, _, rfl⟩

lemma monza_avg_radius_pos :
    0 < (monzaShape.circuit_length * 1000 - monzaShape.longest_straight * 1.5) /
      ((monzaShape.corner_count : ℝ) * Real.pi / 2) := by
  apply div_pos
  · norm_num [monzaShape]
  · have hπ := Real.pi_pos
    simp only [monzaShape]
    positivity

lemma monza_analysis_some :
    ∃ a, analyze_on_track monzaConfig {} = some a ∧ a.downforce_requirement = "low" := by
  have hcur : ∀ i : ℕ, ∃ t, corner_one (carFromConfig {})
      ((monzaShape.circuit_length * 1000 - monzaShape.longest_straight * 1.5) /
        ((monzaShape.corner_count : ℝ) * Real.pi / 2)) i = some t := fun i =>
    corner_one_some _ _ i (by norm_num [carFromConfig]) (by norm_num [carFromConfig, F1_CAR_MASS])
      (by norm_num [carFromConfig]) (by norm_num [carFromConfig]) (by norm_num [carFromConfig])
      (by norm_num [carFromConfig]) (by norm_num [carFromConfig]) (by norm_num [carFromConfig])
      (by norm_num [carFromConfig]) monza_avg_radius_pos
  have hopt : ∀ i : ℕ, ∃ t, corner_one
      (carFromOptimal (carFromConfig {}) (optimize_for_track monzaConfig.downforce_level))
      ((monzaShape.circuit_length * 1000 - monzaShape.longest_straight * 1.5) /
        ((monzaShape.corner_count : ℝ) * Real.pi / 2)) i = some t := fun i =>
    corner_one_some _ _ i
      (by norm_num [carFromOptimal, carFromConfig, optimize_for_track_eq_medium, monzaConfig])
      (by norm_num [carFromOptimal, carFromConfig, optimize_for_track_eq_medium, monzaConfig, F1_CAR_MASS])
      (by norm_num [carFromOptimal, carFromConfig, optimize_for_track_eq_medium, monzaConfig])
      (by norm_num [carFromOptimal, carFromConfig, optimize_for_track_eq_medium, monzaConfig])
      (by norm_num [carFromOptimal, carFromConfig, optimize_for_track_eq_medium, monzaConfig])
      (by norm_num [carFromOptimal, carFromConfig, optimize_for_track_eq_medium, monzaConfig])
      (by norm_num [carFromOptimal, carFromConfig, optimize_for_track_eq_medium, monzaConfig])
      (by norm_num [carFromOptimal, carFromConfig, optimize_for_track_eq_medium, monzaConfig])
      (by norm_num [carFromOptimal, carFromConfig, optimize_for_track_eq_medium, monzaConfig])
      monza_avg_radius_pos
  obtain ⟨s1, s2, hp1⟩ := predict_optimal_laptime_some (carFromConfig {}) monzaShape
    (simulate_corners_some _ monzaShape.corner_count _ hcur)
  obtain ⟨s3, s4, hp2⟩ := predict_optimal_laptime_some
    (carFromOptimal (carFromConfig {}) (optimize_for_track monzaConfig.downforce_level))
    monzaShape (simulate_corners_some _ monzaShape.corner_count _ hopt)
  simp only [analyze_on_track]
  rw [monza_shape_eq, hp1, hp2]
  exact ⟨_, rfl, rfl⟩

/-! ## Claim C5 -/

/-- Claim C5: `analyze_circuit "Monza"` resolves the name case-insensitively
against the registry (to the "Italy" entry), succeeds, and reports the
downforce requirement "low"; an unmatched name raises the NotFound error
carrying the attempted name instead of substituting a default track. -/
theorem analyze_circuit_monza_and_notfound :
    (∃ a, analyze_circuit "Monza" {} = Except.ok a ∧ a.downforce_requirement = "low") ∧
    analyze_circuit "Nonexistent Track" {} =
      Except.error (AnalyzeError.trackNotFound "Nonexistent Track") := by
  constructor
  · obtain ⟨a, ha, hlow⟩ := monza_analysis_some
    refine ⟨a, ?_, hlow⟩
    unfold analyze_circuit
    rw [show get_track_by_name "Monza" = some monzaConfig from by decide]
    change (match analyze_on_track monzaConfig {} with
      | some a => Except.ok a
      | none => Except.error AnalyzeError.simulationFailed) = Except.ok a
    rw [ha]
  · unfold analyze_circuit
    rw [show get_track_by_name "Nonexistent Track" = (none : Option TrackConfig) from by decide]

/-! ## Claim C9 -/

/-- Claim C9: every successful analysis reports the simulated lap-time
strings of the derived track-optimal configuration in
`qualifying_lap_time` / `race_lap_time`; the caller's configuration enters
only through the parsed time-gain deltas, and every other field of the
result is independent of the caller's configuration. -/
theorem analysis_reports_optimal_times (t : TrackConfig) (cfg : AeroConfig)
    (a : CircuitAnalysis) (h : analyze_on_track t cfg = some a) :
    (∃ cq cr oq orr,
      predict_optimal_laptime (carFromConfig cfg) (trackShapeOf t) = some (cq, cr) ∧
      predict_optimal_laptime
        (carFromOptimal (carFromConfig cfg) (optimize_for_track t.downforce_level))
        (trackShapeOf t) = some (oq, orr) ∧
      a.qualifying_lap_time = oq ∧ a.race_lap_time = orr ∧
      a.time_gain_quali = parse_laptime cq - parse_laptime oq ∧
      a.time_gain_race = parse_laptime cr - parse_laptime orr) ∧
    (∀ (cfg₂ : AeroConfig) (a₂ : CircuitAnalysis), analyze_on_track t cfg₂ = some a₂ →
      a₂.track_name = a.track_name ∧ a₂.qualifying_lap_time = a.qualifying_lap_time ∧
      a₂.race_lap_time = a.race_lap_time ∧ a₂.optimal_config = a.optimal_config ∧
      a₂.downforce_requirement = a.downforce_requirement ∧
      a₂.top_speed_estimate = a.top_speed_estimate ∧
      a₂.avg_corner_speed = a.avg_corner_speed ∧ a₂.top_speed = a.top_speed ∧
      a₂.setup_recommendations = a.setup_recommendations ∧
      a₂.critical_corners = a.critical_corners) := by
  simp only [analyze_on_track] at h
  rcases hp1 : predict_optimal_laptime (carFromConfig cfg) (trackShapeOf t) with - | ⟨cq, cr⟩ <;>
    rw [hp1] at h
  · simp at h
  rcases hp2 : predict_optimal_laptime
      (carFromOptimal (carFromConfig cfg) (optimize_for_track t.downforce_level))
      (trackShapeOf t) with - | ⟨oq, orr⟩ <;> rw [hp2] at h
  · simp at h
  have ha : a = mkCircuitAnalysis t cq cr oq orr
      (carFromOptimal (carFromConfig cfg) (optimize_for_track t.downforce_level)) :=
    (Option.some.inj h).symm
  subst ha
  constructor
  · exact ⟨cq, cr, oq, orr, rfl, rfl, rfl, rfl, rfl, rfl⟩
  · intro cfg₂ a₂ h₂
    simp only [analyze_on_track] at h₂
    have hoe : carFromOptimal (carFromConfig cfg₂) (optimize_for_track t.downforce_level) =
        carFromOptimal (carFromConfig cfg) (optimize_for_track t.downforce_level) := rfl
    rw [hoe] at h₂
    rcases hp1' : predict_optimal_laptime (carFromConfig cfg₂) (trackShapeOf t)
      with - | ⟨cq₂, cr₂⟩ <;> rw [hp1'] at h₂
    · simp at h₂
    rw [hp2] at h₂
    have ha₂ : a₂ = mkCircuitAnalysis t cq₂ cr₂ oq orr
        (carFromOptimal (carFromConfig cfg) (optimize_for_track t.downforce_level)) :=
      (Option.some.inj h₂).symm
    subst ha₂
    exact ⟨rfl, rfl, rfl, rfl, rfl, rfl, rfl, rfl, rfl, rfl⟩

theorem analysis_reports_optimal_times_witness :
    (analyze_on_track monzaConfig {}).map CircuitAnalysis.qualifying_lap_time =
      (predict_optimal_laptime
        (carFromOptimal (carFromConfig {}) (optimize_for_track monzaConfig.downforce_level))
        (trackShapeOf monzaConfig)).map Prod.fst := by
  obtain ⟨a, ha, -⟩ := monza_analysis_some
  obtain ⟨⟨cq, cr, oq, orr, hp1, hp2, hq, -, -, -⟩, -⟩ :=
    analysis_reports_optimal_times monzaConfig {} a ha
  rw [ha, hp2, Option.map_some', Option.map_some', hq]

/-! ## Claim C1: evaluation lemmas for the default car on Monza -/

lemma wing_efficiency_at_22 : wing_efficiency 22 = 0.94 := by
  unfold wing_efficiency
  rw [if_pos (by norm_num), min_eq_left (by norm_num)]
  norm_num

lemma wing_efficiency_at_26 : wing_efficiency 26 = 1 := by
  unfold wing_efficiency
  rw [if_pos (by norm_num), min_eq_right (by norm_num)]
  norm_num

lemma ground_effect_factor_at_14 :
    ground_effect_factor 14 = 1 + 0.3 * Real.exp (-(1 / 25)) := by
  unfold ground_effect_factor
  rw [if_neg (by norm_num), if_neg (by norm_num)]
  norm_num

/-- Total downforce of the default car at velocity `v`:
`q * cl_front_eff + q * cl_rear_eff` with the default heights and wing
angles evaluated. -/
lemma default_downforce_total (v : ℝ) :
    (calculate_downforce (aeroStateOf {} v)).2.2 =
      0.8575 * v ^ 2 * (3.41 + 0.6 * Real.exp (-(1 / 25))) := by
  unfold calculate_downforce aeroStateOf
  simp only
  norm_num [ground_effect_factor_at_12, ground_effect_factor_at_14,
    wing_efficiency_at_22, wing_efficiency_at_26, AIR_DENSITY]
  ring

set_option maxHeartbeats 8000000 in
/-- Interval evaluation of one corner for the default car, parametric in
verified rational bound constants: `rl ≤ radius ≤ ru`, `vl/vu` bound the
corner-speed estimate, `dl/du` the maximal lateral acceleration, `wl/wu`
the maximal corner speed, and the final time lands in `[4.6, 5.6]`. -/
lemma corner_one_default_eval (A : ℝ) (i : ℕ)
    (rl ru vl vu dl du wl wu : ℝ)
    (hrl : rl ≤ A * (0.7 + 0.6 * ((i % 3 : ℕ) : ℝ) / 2))
    (hru : A * (0.7 + 0.6 * ((i % 3 : ℕ) : ℝ) / 2) ≤ ru)
    (hrl0 : 0 < rl)
    (hvl2 : vl ^ 2 ≤ 19.62 * rl) (hvu2 : 19.62 * ru ≤ vu ^ 2)
    (hvl53 : 53.85 ≤ vl) (hvu0 : 0 ≤ vu)
    (hdl : dl ≤ (7828.38 + 0.8575 * (19.62 * rl) * 3.986) / 399)
    (hdu : (7828.38 + 0.8575 * (19.62 * ru) * 3.986924) / 399 ≤ du)
    (hdl0 : 0 < dl)
    (hwl2 : wl ^ 2 ≤ dl * rl) (hwu2 : du * ru ≤ wu ^ 2)
    (hwl70 : 70 < wl) (hwu0 : 0 ≤ wu)
    (hlow : 4.6 ≤ 1.570796 * rl / wu + 0.03 * vl)
    (hhigh : 1.5707965 * ru / wl + 0.03 * vu ≤ 5.6) :
    ∃ t, corner_one {} A i = some t ∧ 4.6 ≤ t ∧ t ≤ 5.6 := by
  have hπl := Real.pi_gt_3141592
  have hπu := Real.pi_lt_3141593
  have he := exp_neg_one_div_25_bounds
  simp only [corner_one]
  obtain ⟨F, hFdef⟩ : ∃ x : ℝ, x = 0.7 + 0.6 * ((i % 3 : ℕ) : ℝ) / 2 := ⟨_, rfl⟩
  rw [← hFdef] at hrl hru ⊢
  have hrad0 : 0 < A * F := lt_of_lt_of_le hrl0 hrl
  have hru0 : 0 < ru := lt_of_lt_of_le hrl0 (le_trans hrl hru)
  have hGe : (2.0 : ℝ) * ((GRAVITY : ℚ) : ℝ) * (A * F) = 19.62 * (A * F) := by
    norm_num [GRAVITY]
  rw [hGe]
  have hvnn : (0 : ℝ) ≤ 19.62 * (A * F) :=
    (mul_pos (by norm_num : (0 : ℝ) < 19.62) hrad0).le
  rw [if_neg (not_lt.mpr hvnn)]
  rw [default_downforce_total]
  rw [Real.sq_sqrt hvnn]
  have hmg : ((F1_CAR_MASS : ℚ) : ℝ) * ((GRAVITY : ℚ) : ℝ) = 7828.38 := by
    norm_num [F1_CAR_MASS, GRAVITY]
  rw [hmg]
  have hml : (2.0 : ℝ) *
      (7828.38 + 0.8575 * (19.62 * (A * F)) * (3.41 + 0.6 * Real.exp (-(1 / 25)))) /
      ((F1_CAR_MASS : ℚ) : ℝ) =
      (7828.38 + 0.8575 * (19.62 * (A * F)) * (3.41 + 0.6 * Real.exp (-(1 / 25)))) / 399 := by
    rw [show ((F1_CAR_MASS : ℚ) : ℝ) = 798 from by norm_num [F1_CAR_MASS]]
    ring
  rw [hml]
  clear hGe hmg hml
  obtain ⟨M, hMdef⟩ : ∃ x : ℝ, x =
      (7828.38 + 0.8575 * (19.62 * (A * F)) * (3.41 + 0.6 * Real.exp (-(1 / 25)))) / 399 :=
    ⟨_, rfl⟩
  rw [← hMdef]
  have hSl : (3.986 : ℝ) ≤ 3.41 + 0.6 * Real.exp (-(1 / 25)) := by nlinarith [he.1]
  have hSu : 3.41 + 0.6 * Real.exp (-(1 / 25)) ≤ 3.986924 := by nlinarith [he.2]
  have hAFl : 19.62 * rl ≤ 19.62 * (A * F) := by nlinarith [hrl]
  have hAFu : 19.62 * (A * F) ≤ 19.62 * ru := by nlinarith [hru]
  have hDFl : 0.8575 * (19.62 * rl) * 3.986 ≤
      0.8575 * (19.62 * (A * F)) * (3.41 + 0.6 * Real.exp (-(1 / 25))) := by
    nlinarith [hAFl, hSl, hrl0, hvnn]
  have hDFu : 0.8575 * (19.62 * (A * F)) * (3.41 + 0.6 * Real.exp (-(1 / 25))) ≤
      0.8575 * (19.62 * ru) * 3.986924 := by
    nlinarith [hAFu, hSu, hrad0, hvnn]
  have hMl : dl ≤ M := by
    rw [hMdef, le_div_iff (show (0 : ℝ) < 399 by norm_num)]
    have h1 := (le_div_iff (show (0 : ℝ) < 399 by norm_num)).mp hdl
    linarith
  have hMu : M ≤ du := by
    rw [hMdef, div_le_iff (show (0 : ℝ) < 399 by norm_num)]
    have h1 := (div_le_iff (show (0 : ℝ) < 399 by norm_num)).mp hdu
    linarith
  have hVMl : wl ^ 2 ≤ M * (A * F) := by
    have h1 : dl * rl ≤ M * rl := mul_le_mul_of_nonneg_right hMl (le_of_lt hrl0)
    have h2 : M * rl ≤ M * (A * F) := mul_le_mul_of_nonneg_left hrl (by linarith)
    linarith
  have hVMu : M * (A * F) ≤ wu ^ 2 := by
    have h1 : M * (A * F) ≤ du * (A * F) := mul_le_mul_of_nonneg_right hMu (le_of_lt hrad0)
    have h2 : du * (A * F) ≤ du * ru := mul_le_mul_of_nonneg_left hru (by linarith)
    linarith
  have hVMnn : (0 : ℝ) ≤ M * (A * F) := le_trans (sq_nonneg wl) hVMl
  rw [if_neg (not_lt.mpr hVMnn)]
  obtain ⟨hwl', hwu'⟩ := sqrt_between (by linarith) hwu0 hVMl hVMu
  have hwpos : 0 < Real.sqrt (M * (A * F)) := by linarith
  rw [if_neg hwpos.ne']
  have hvl2' : vl ^ 2 ≤ 19.62 * (A * F) := le_trans hvl2 hAFl
  have hvu2' : 19.62 * (A * F) ≤ vu ^ 2 := le_trans hAFu hvu2
  obtain ⟨hvl', hvu'⟩ := sqrt_between (show (0 : ℝ) ≤ vl by linarith) hvu0 hvl2' hvu2'
  have h70 : (70 : ℝ) ≤ Real.sqrt (19.62 * (A * F)) * 1.3 := by linarith [hvl']
  have hmin : min (70 : ℝ) (Real.sqrt (19.62 * (A * F)) * 1.3) = 70 := min_eq_left h70
  rw [hmin]
  rw [if_neg (not_lt.mpr (by linarith : (70 : ℝ) ≤ Real.sqrt (M * (A * F))))]
  rw [abs_zero, add_zero,
    abs_of_nonneg (show (0 : ℝ) ≤ Real.sqrt (19.62 * (A * F)) * 0.3 / 10 by positivity)]
  refine ⟨_, rfl, ?_, ?_⟩
  · have harcl : 1.570796 * rl ≤ Real.pi / 2 * (A * F) := by
      have h1 : 1.570796 * rl ≤ 1.570796 * (A * F) := by linarith
      have h2 : 1.570796 * (A * F) ≤ Real.pi / 2 * (A * F) :=
        mul_le_mul_of_nonneg_right (by linarith) (le_of_lt hrad0)
      linarith
    have harcl0 : (0 : ℝ) ≤ Real.pi / 2 * (A * F) := by
      have h1 : (0 : ℝ) ≤ 1.570796 * rl := by linarith
      linarith
    have hdivl : 1.570796 * rl / wu ≤ Real.pi / 2 * (A * F) / Real.sqrt (M * (A * F)) :=
      div_le_div harcl0 harcl hwpos hwu'
    have haccl : 0.03 * vl ≤ Real.sqrt (19.62 * (A * F)) * 0.3 / 10 := by linarith [hvl']
    linarith [hlow]
  · have harcu : Real.pi / 2 * (A * F) ≤ 1.5707965 * ru := by
      have h1 : Real.pi / 2 * (A * F) ≤ 1.5707965 * (A * F) :=
        mul_le_mul_of_nonneg_right (by linarith) (le_of_lt hrad0)
      have h2 : 1.5707965 * (A * F) ≤ 1.5707965 * ru := by linarith
      linarith
    have hru00 : (0 : ℝ) ≤ 1.5707965 * ru := by linarith
    have hwl0 : (0 : ℝ) < wl := by linarith
    have hdivu : Real.pi / 2 * (A * F) / Real.sqrt (M * (A * F)) ≤ 1.5707965 * ru / wl :=
      div_le_div hru00 harcu hwl0 hwl'
    have haccu : Real.sqrt (19.62 * (A * F)) * 0.3 / 10 ≤ 0.03 * vu := by linarith [hvu']
    linarith [hhigh]

/-- Every corner of the default car on the Monza average radius takes
between 4.6 and 5.6 seconds. -/
lemma corner_one_default_bounds (A : ℝ) (hAl : 235.4334 ≤ A) (hAu : A ≤ 235.4337) (i : ℕ) :
    ∃ t, corner_one {} A i = some t ∧ 4.6 ≤ t ∧ t ≤ 5.6 := by
  have h3 : i % 3 = 0 ∨ i % 3 = 1 ∨ i % 3 = 2 := by omega
  rcases h3 with h3 | h3 | h3
  · exact corner_one_default_eval A i 164.803 164.804 56.86 56.87 47.31 47.33 88.29 88.33
      (by rw [h3]; push_cast; nlinarith) (by rw [h3]; push_cast; nlinarith)
      (by norm_num) (by norm_num) (by norm_num) (by norm_num) (by norm_num)
      (by norm_num) (by norm_num) (by norm_num) (by norm_num) (by norm_num)
      (by norm_num) (by norm_num) (by norm_num) (by norm_num)
  · exact corner_one_default_eval A i 235.4334 235.4337 67.96 67.97 59.18 59.21 118.03 118.08
      (by rw [h3]; push_cast; nlinarith) (by rw [h3]; push_cast; nlinarith)
      (by norm_num) (by norm_num) (by norm_num) (by norm_num) (by norm_num)
      (by norm_num) (by norm_num) (by norm_num) (by norm_num) (by norm_num)
      (by norm_num) (by norm_num) (by norm_num) (by norm_num)
  · exact corner_one_default_eval A i 306.063 306.064 77.49 77.50 71.05 71.08 147.46 147.50
      (by rw [h3]; push_cast; nlinarith) (by rw [h3]; push_cast; nlinarith)
      (by norm_num) (by norm_num) (by norm_num) (by norm_num) (by norm_num)
      (by norm_num) (by norm_num) (by norm_num) (by norm_num) (by norm_num)
      (by norm_num) (by norm_num) (by norm_num) (by norm_num)

/-- One integration step of the default car preserves the velocity window
`[50, 100]`, advances the position by at least 5 m and the time by exactly
0.1 s.  (The default drag `0.60025 v^2` stays below the engine force
`745000 / v` throughout the window.) -/
lemma default_step_props {s : SimState} (h50 : 50 ≤ s.velocity) (h100 : s.velocity ≤ 100) :
    50 ≤ (straight_step {} s).velocity ∧ (straight_step {} s).velocity ≤ 100 ∧
      s.position + 5 ≤ (straight_step {} s).position ∧
      (straight_step {} s).time = s.time + 0.1 := by
  have hv0 : (0 : ℝ) < s.velocity := by linarith
  have hmax : max s.velocity 0.1 = s.velocity := max_eq_left (by linarith)
  have hρ : ((AIR_DENSITY : ℚ) : ℝ) = 1.225 := by norm_num [AIR_DENSITY]
  have hM : ((F1_CAR_MASS : ℚ) : ℝ) = 798 := by norm_num [F1_CAR_MASS]
  have hE : (7450 : ℝ) ≤ 745000 / s.velocity := by
    rw [le_div_iff hv0]
    nlinarith
  have hdrag : 0.5 * 1.225 * s.velocity ^ 2 * (0.70 * (1 + 0.02 * (0 : ℝ))) * 1.4 ≤ 6002.5 := by
    nlinarith
  have hvel : 50 ≤ (straight_step {} s).velocity ∧ (straight_step {} s).velocity ≤ 100 := by
    simp only [straight_step, calculate_drag_force, aeroStateOf, hmax, hρ, hM, abs_zero]
    constructor
    · exact le_min (by nlinarith [hE, hdrag]) (by norm_num)
    · exact min_le_right _ _
  refine ⟨hvel.1, hvel.2, ?_, rfl⟩
  have hpos : (straight_step {} s).position =
      s.position + (straight_step {} s).velocity * 0.1 := rfl
  rw [hpos]
  nlinarith [hvel.1]

/-- If the default car can cover the remaining distance in `n` five-metre
steps, the loop finishes within `n` further iterations of 0.1 s whatever
extra fuel is supplied. -/
lemma default_loop_time_ub (d : ℝ) :
    ∀ (n m : ℕ) (s : SimState), 50 ≤ s.velocity → s.velocity ≤ 100 →
      d ≤ s.position + 5 * n →
      (straight_loop {} d (n + m) s).time ≤ s.time + 0.1 * n := by
  intro n
  induction n with
  | zero =>
    intro m s _ _ hd
    have hstop : ¬(s.position < d ∧ s.time < 60) := by
      rintro ⟨h1, -⟩
      push_cast at hd
      linarith
    rw [straight_loop_stop hstop]
    push_cast
    linarith
  | succ n ih =>
    intro m s h50 h100 hd
    by_cases h : s.position < d ∧ s.time < 60
    · obtain ⟨hv1, hv2, hp5, ht⟩ := default_step_props h50 h100
      rw [show n + 1 + m = (n + m) + 1 from by omega, straight_loop_cont h]
      have h2 := ih m (straight_step {} s) hv1 hv2 (by push_cast at hd ⊢; linarith)
      rw [ht] at h2
      push_cast at h2 ⊢
      linarith
    · rw [straight_loop_stop h]
      have hn : (0 : ℝ) ≤ 0.1 * ((n : ℝ) + 1) := by positivity
      push_cast
      linarith

/-- The default straight phase over the Monza straight distance lasts
between 17.25 s and 34.5 s. -/
lemma default_straight_bounds :
    17.25 ≤ simulate_straight {} (1150 * 1.5) ∧ simulate_straight {} (1150 * 1.5) ≤ 34.5 := by
  have hub : (straight_loop {} (1150 * 1.5) 600 ⟨50, 0, 0⟩).time ≤ 34.5 := by
    have h := default_loop_time_ub (1150 * 1.5) 345 255 ⟨50, 0, 0⟩
      (by norm_num) (by norm_num) (by norm_num)
    rw [show (345 + 255 : ℕ) = 600 from rfl] at h
    refine le_trans h ?_
    norm_num
  have hpos := straight_loop_pos_le {} (1150 * 1.5) 600 ⟨50, 0, 0⟩
  have htri := straight_loop_time_tricho {} (1150 * 1.5) 600 ⟨50, 0, 0⟩
  norm_num at hpos
  constructor
  · rcases htri with h | h
    · rw [h] at hub
      norm_num at hub
    · have htlt : (straight_loop {} (1150 * 1.5) 600 ⟨50, 0, 0⟩).time < 60 := by
        simp only [simulate_straight] at hub ⊢
        linarith
      have hge : ¬((straight_loop {} (1150 * 1.5) 600 ⟨50, 0, 0⟩).position < 1150 * 1.5) :=
        fun hlt => h ⟨hlt, htlt⟩
      push_neg at hge
      simp only [simulate_straight]
      linarith
  · exact hub

/-- Summation of the corner phase: uniform per-corner bounds scale with the
corner count. -/
lemma simulate_corners_bounds (p : CarParameters) (A lo hi : ℝ)
    (h : ∀ i : ℕ, ∃ t, corner_one p A i = some t ∧ lo ≤ t ∧ t ≤ hi) :
    ∀ n : ℕ, ∃ T, simulate_corners p n A = some T ∧ (n : ℝ) * lo ≤ T ∧ T ≤ (n : ℝ) * hi := by
  intro n
  induction n with
  | zero =>
    refine ⟨0, rfl, ?_, ?_⟩ <;> push_cast <;> linarith
  | succ n ih =>
    obtain ⟨T, hT, hTl, hTu⟩ := ih
    obtain ⟨c, hc, hcl, hcu⟩ := h n
    refine ⟨T + c, ?_, ?_, ?_⟩
    · simp only [simulate_corners] at hT ⊢
      rw [List.range_succ, List.foldl_append, hT, List.foldl_cons, List.foldl_nil, hc]
    · push_cast
      linarith
    · push_cast
      linarith

/-- Each of the ten digit characters is a digit. -/
lemma digitChar_mod_isDigit (n : ℕ) : (Nat.digitChar (n % 10)).isDigit = true := by
  have h10 : ∀ m : Fin 10, (Nat.digitChar m.val).isDigit = true := by decide
  exact h10 ⟨n % 10, Nat.mod_lt _ (by norm_num)⟩

/-- Lap times in `[60, 120)` format to a string matching `M:SS.mmm`. -/
lemma format_lap_time_matches {t : ℝ} (h1 : 60 ≤ t) (h2 : t < 120) :
    matches_lap_format (format_lap_time t) = true := by
  have hm : ⌊t / 60⌋ = (1 : ℤ) := by
    rw [Int.floor_eq_iff]
    push_cast
    constructor <;> [linarith; linarith]
  simp only [format_lap_time, hm, Int.toNat_one]
  rw [show (Nat.repr 1).data = ['1'] from rfl]
  simp only [msDigits, matches_lap_format, List.cons_append, List.nil_append, lapFormatTail]
  simp [digitChar_mod_isDigit]

/-- Claim C1: for the default car (drag 0.70, lift 1.5/2.0, wings 22/26,
ride heights 12/14) on the Monza descriptor (5.793 km, 11 corners, 1150 m
longest straight), `simulate_lap` with `race_mode = false` succeeds and
returns a lap whose seconds value lies strictly between 60 and 120 and
whose string renders in the `M:SS.mmm` format. -/
theorem monza_default_lap_in_bounds :
    ∃ res, simulate_lap {} monzaShape false = some res ∧
      60 < res.lap_time_seconds ∧ res.lap_time_seconds < 120 ∧
      matches_lap_format res.lap_time = true := by
  have hπl := Real.pi_gt_3141592
  have hπu := Real.pi_lt_3141593
  simp only [simulate_lap, monzaShape, Nat.cast_ofNat, Bool.false_eq_true, if_false]
  obtain ⟨A, hAdef⟩ : ∃ x : ℝ,
      x = (5.793 * 1000 - 1150 * 1.5) / ((11 : ℝ) * Real.pi / 2) := ⟨_, rfl⟩
  rw [← hAdef]
  have hAl : 235.4334 ≤ A := by
    rw [hAdef, le_div_iff (by positivity)]
    nlinarith
  have hAu : A ≤ 235.4337 := by
    rw [hAdef, div_le_iff (by positivity)]
    nlinarith
  obtain ⟨C, hCsome, hCl, hCu⟩ := simulate_corners_bounds {} A 4.6 5.6
    (fun i => corner_one_default_bounds A hAl hAu i) 11
  obtain ⟨hSl, hSu⟩ := default_straight_bounds
  rw [hCsome, Option.map_some']
  push_cast at hCl hCu
  refine ⟨_, rfl, ?_, ?_, ?_⟩
  · show 60 < simulate_straight {} (1150 * 1.5) + C
    linarith
  · show simulate_straight {} (1150 * 1.5) + C < 120
    linarith
  · exact format_lap_time_matches (by linarith) (by linarith)
